import Mathlib

/-!
Verification of the amcrest-downloader recording-discovery client and
bounded-concurrency retrieval pipeline.

The Python sources are shallowly embedded:

* text is modelled as `List Char` (`Chars`); the Python `str` operations the
  code uses (`strip`, `startswith`, `in`, `split`, `splitlines`, `lower`,
  `int(...)`) are re-implemented structurally so that every definition is
  executable and kernel-reducible;
* network traffic is an oracle: each HTTP request the code performs is given
  its outcome (`NetResult.ok body` for a response text, `NetResult.exn` for a
  raised `requests` exception);
* a raised Python exception is an `Except.error ()` / `Option.none` value;
* the thread pool's nondeterministic completion order is an explicit
  `order : List Nat` argument (the order in which `as_completed` yields the
  futures), constrained in theorems to be a permutation of the task indices;
* the destination file of a download is `Option (List Nat)` (`none` = no file
  at the path, `some bytes` = a file holding those bytes).
-/

/-- Python text, modelled as its list of characters. -/
abbrev Chars := List Char

/-- Whitespace stripped by Python `str.strip()` (ASCII part; the parser inputs
contain no exotic unicode whitespace). -/
def pyIsWS (c : Char) : Bool :=
  c == ' ' || c == '\t' || c == '\n' || c == '\r' || c == '\x0b' || c == '\x0c'

/-- Drop leading whitespace. -/
def pyDropWS : Chars → Chars
  | [] => []
  | x :: xs => if pyIsWS x then pyDropWS xs else x :: xs

/-- Python `str.strip()`. -/
def pyStrip (l : Chars) : Chars :=
  (pyDropWS (pyDropWS l).reverse).reverse

/-- `pyIsPrefixOf pat s`: does `s` start with `pat`? -/
def pyIsPrefixOf : Chars → Chars → Bool
  | [], _ => true
  | _ :: _, [] => false
  | p :: ps, x :: xs => p == x && pyIsPrefixOf ps xs

/-- Python `s.startswith(pat)`. -/
def pyStartsWith (s pat : Chars) : Bool :=
  pyIsPrefixOf pat s

/-- Helper for substring search: does `pat` occur in the list at any position? -/
def pyContainsAux (pat : Chars) : Chars → Bool
  | [] => pyIsPrefixOf pat []
  | x :: xs => pyIsPrefixOf pat (x :: xs) || pyContainsAux pat xs

/-- Python `pat in s` (substring containment). -/
def pyContains (s pat : Chars) : Bool :=
  pyContainsAux pat s

/-- Python `s.split(c)` for a one-character separator (keeps empty fields). -/
def pySplitChar (c : Char) : Chars → List Chars
  | [] => [[]]
  | x :: xs =>
    if x == c then [] :: pySplitChar c xs
    else
      match pySplitChar c xs with
      | [] => [[x]]
      | g :: gs => (x :: g) :: gs

/-- Python `s.split(c, 1)[1]`: everything after the first occurrence of `c`.
Every caller in the source first checks that `c` occurs (Python would raise
`IndexError` otherwise), so the out-of-range case is never exercised. -/
def pyAfterFirst (c : Char) : Chars → Chars
  | [] => []
  | x :: xs => if x == c then xs else pyAfterFirst c xs

/-- Python `str.lower()` (ASCII case folding, which is all the `"ok"` check
in `_validate_search_response` needs). -/
def pyLower (l : Chars) : Chars :=
  l.map Char.toLower

/-- Python `str.splitlines()` for `\n`-separated text (the device protocol is
`\n`-line-oriented; a possible trailing empty line is skipped by the parser). -/
def pyLines (l : Chars) : List Chars :=
  pySplitChar '\n' l

/-- Numeric value of a digit string. -/
def digitsVal (l : Chars) : Nat :=
  l.foldl (fun n c => n * 10 + (c.toNat - 48)) 0

/-- Parse a non-empty all-digit string (the digit core of Python `int(...)`). -/
def pyParseNat (l : Chars) : Option Nat :=
  match l with
  | [] => none
  | _ :: _ => if l.all Char.isDigit then some (digitsVal l) else none

/-- Python `int(s)`: strip whitespace, optional sign, decimal digits; `none`
models the `ValueError` raised on anything else.  (Underscore digit
separators, accepted by CPython, are not modelled; no claim depends on them.) -/
def pyInt (l : Chars) : Option Int :=
  match pyStrip l with
  | '+' :: rest => (pyParseNat rest).map Int.ofNat
  | '-' :: rest => (pyParseNat rest).map (fun n => -(n : Int))
  | t => (pyParseNat t).map Int.ofNat

/-- Strict lexicographic order on character lists by code point: exactly how
Python compares the `str` forms of the `PosixPath` values that
`sorted(downloaded_files)` sorts (all paths share the same parent directory). -/
def lexLt : Chars → Chars → Bool
  | [], [] => false
  | [], _ :: _ => true
  | _ :: _, [] => false
  | a :: as, b :: bs => if a < b then true else if b < a then false else lexLt as bs

/-- Reflexive lexicographic order on character lists. -/
def lexLe (s t : Chars) : Bool :=
  !(lexLt t s)

/-- Decimal digits of a natural number. -/
def natChars (n : Nat) : Chars :=
  (Nat.repr n).data

/-- The two low decimal digits, zero padded. -/
def two0 (n : Nat) : Chars :=
  [Nat.digitChar (n / 10 % 10), Nat.digitChar (n % 10)]

/-- Python `%02d` / `strftime` two-digit field: zero-padded to width 2,
wider numbers printed in full. -/
def pad2 (n : Nat) : Chars :=
  if n < 100 then two0 n else natChars n

/-- The four low decimal digits, zero padded. -/
def four0 (n : Nat) : Chars :=
  [Nat.digitChar (n / 1000 % 10), Nat.digitChar (n / 100 % 10),
   Nat.digitChar (n / 10 % 10), Nat.digitChar (n % 10)]

/-- Python `f"{n:04d}"` (also `strftime` `%Y`): zero-padded to width 4, wider
numbers printed in full. -/
def fmt04 (n : Nat) : Chars :=
  if n < 10000 then four0 n else natChars n

/-! ## models.py -/

/-- Wall-clock fields of a Python `datetime` (src/models.py uses only these
and `tzinfo`). -/
structure PyDateTime where
  year : Nat
  month : Nat
  day : Nat
  hour : Nat
  minute : Nat
  second : Nat
deriving DecidableEq, Repr

/-- A Python `datetime` together with its optional `tzinfo`; only the offset
(in minutes) of an aware datetime is retained, and the serialization code
never reads it. -/
structure PyDateTimeTz where
  wall : PyDateTime
  tzinfo : Option Int
deriving DecidableEq, Repr

/-- src/models.py `TimeRange`. -/
structure TimeRange where
  start : PyDateTimeTz
  «end» : PyDateTimeTz
deriving DecidableEq, Repr

/-- `datetime.replace(tzinfo=None)`: drops the offset, keeps every wall-clock
field unchanged. -/
def replaceTzNone (d : PyDateTimeTz) : PyDateTimeTz :=
  ⟨d.wall, none⟩

/-- `datetime.strftime("%Y-%m-%d %H:%M:%S")` on the wall-clock fields. -/
def strftimeAmcrest (d : PyDateTime) : Chars :=
  fmt04 d.year ++ ['-'] ++ pad2 d.month ++ ['-'] ++ pad2 d.day ++ [' '] ++
    pad2 d.hour ++ [':'] ++ pad2 d.minute ++ [':'] ++ pad2 d.second

/-- src/models.py `TimeRange.to_amcrest_format` (lines 17-21): strip the
timezone of an aware timestamp (`replace(tzinfo=None)`), keep a naive one
as-is, then format both with `"%Y-%m-%d %H:%M:%S"`. -/
def TimeRange.to_amcrest_format (tr : TimeRange) : Chars × Chars :=
  let s := if tr.start.tzinfo.isSome then replaceTzNone tr.start else tr.start
  let e := if tr.«end».tzinfo.isSome then replaceTzNone tr.«end» else tr.«end»
  (strftimeAmcrest s.wall, strftimeAmcrest e.wall)

/-- src/models.py `Recording` (`file_path` is the opaque device path, held as
text; `pathlib`'s slash normalisation is not modelled and no claim depends on
it). -/
structure Recording where
  start_time : PyDateTime
  end_time : PyDateTime
  file_path : Chars
  channel : Int
deriving DecidableEq, Repr

/-! ## datetime.strptime with format "%Y-%m-%d %H:%M:%S"

`_create_recording` parses the `StartTime` / `EndTime` fields with
`datetime.strptime(s, "%Y-%m-%d %H:%M:%S")`.  CPython matches `%Y` as exactly
four digits, and the other fields as one or two digits within their ranges,
then the `datetime` constructor validates the calendar date (`ValueError`
otherwise, e.g. for year 0 or February 30). -/

/-- Gregorian leap year test (as Python's `calendar`/`datetime`). -/
def isLeapYear (y : Nat) : Bool :=
  y % 4 == 0 && (y % 100 != 0 || y % 400 == 0)

/-- Days in a month, as validated by the `datetime` constructor. -/
def daysInMonth (y m : Nat) : Nat :=
  if m == 2 then (if isLeapYear y then 29 else 28)
  else if m == 4 || m == 6 || m == 9 || m == 11 then 30
  else 31

/-- `%Y`: exactly four digits. -/
def parseExact4 (l : Chars) : Option Nat :=
  if l.length == 4 && l.all Char.isDigit then some (digitsVal l) else none

/-- A one- or two-digit `strptime` field with value in `[lo, hi]`. -/
def parseF12 (lo hi : Nat) (l : Chars) : Option Nat :=
  if (l.length == 1 || l.length == 2) && l.all Char.isDigit then
    if lo ≤ digitsVal l ∧ digitsVal l ≤ hi then some (digitsVal l) else none
  else none

/-- `datetime.strptime(s, "%Y-%m-%d %H:%M:%S")`; `none` models the raised
`ValueError`.  (CPython also lets the literal space match a whitespace run;
the device emits a single space and no claim depends on the difference.) -/
def strptimeAmcrest (s : Chars) : Option PyDateTime :=
  match pySplitChar ' ' s with
  | [datePart, timePart] =>
    match pySplitChar '-' datePart, pySplitChar ':' timePart with
    | [ys, ms, ds], [hs, mins, ss] =>
      match parseExact4 ys, parseF12 1 12 ms, parseF12 1 31 ds,
            parseF12 0 23 hs, parseF12 0 59 mins, parseF12 0 59 ss with
      | some y, some mo, some d, some h, some mi, some se =>
        if 1 ≤ y ∧ d ≤ daysInMonth y mo then some ⟨y, mo, d, h, mi, se⟩ else none
      | _, _, _, _, _, _ => none
    | _, _ => none
  | _ => none

/-! ## src/amcrest_api.py — the batch parser -/

/-- The parser's `current_file` accumulator dict: the four recognised keys,
each optional. -/
structure FileData where
  FilePath : Option Chars
  StartTime : Option Chars
  EndTime : Option Chars
  Channel : Option Int
deriving DecidableEq, Repr

/-- The empty accumulator (`current_file = {}`). -/
def emptyFileData : FileData :=
  ⟨none, none, none, none⟩

/-- One recognised `field=value` pair. -/
inductive RecField where
  | filePath (v : Chars)
  | startTime (v : Chars)
  | endTime (v : Chars)
  | channel (v : Int)
deriving DecidableEq, Repr

/-- Merge a parsed pair into the accumulator (`current_file[key] = value`). -/
def applyField (fd : FileData) : RecField → FileData
  | .filePath v => { fd with FilePath := some v }
  | .startTime v => { fd with StartTime := some v }
  | .endTime v => { fd with EndTime := some v }
  | .channel v => { fd with Channel := some v }

/-- src/amcrest_api.py `_parse_recording_line` (lines 168-177): substring
dispatch on the four recognised keys; the value is everything after the first
`=`.  The outer `none` models the uncaught `ValueError` that `int(...)`
raises on a malformed `Channel` value; `some none` is the `(None, None)`
no-key result. -/
def parseRecordingLine (line : Chars) : Option (Option RecField) :=
  if pyContains line ".FilePath=".data then some (some (.filePath (pyAfterFirst '=' line)))
  else if pyContains line ".StartTime=".data then some (some (.startTime (pyAfterFirst '=' line)))
  else if pyContains line ".EndTime=".data then some (some (.endTime (pyAfterFirst '=' line)))
  else if pyContains line ".Channel=".data then
    match pyInt (pyAfterFirst '=' line) with
    | some n => some (some (.channel n))
    | none => none
  else some none

/-- src/amcrest_api.py `_is_complete_recording` (lines 179-180). -/
def isCompleteRecording (fd : FileData) : Bool :=
  fd.FilePath.isSome && fd.StartTime.isSome

/-- src/amcrest_api.py `_should_include_recording` (lines 182-183). -/
def shouldIncludeRecording (r : Recording) : Bool :=
  pyContains r.file_path ".mp4".data

/-- src/amcrest_api.py `_create_recording` (lines 185-197): `strptime` both
timestamps, default the channel to 0.  `none` models any raised exception
(`KeyError` on a missing `StartTime`/`EndTime`, `ValueError` from
`strptime`), which the callers swallow. -/
def createRecording (fd : FileData) : Option Recording :=
  match fd.StartTime with
  | none => none
  | some sts =>
    match strptimeAmcrest sts with
    | none => none
    | some st =>
      match fd.EndTime with
      | none => none
      | some ets =>
        match strptimeAmcrest ets with
        | none => none
        | some et =>
          match fd.FilePath with
          | none => none
          | some fp => some ⟨st, et, fp, fd.Channel.getD 0⟩

/-- The guarded finalisation of the accumulator (`try: ... except: pass`
around `_create_recording` plus the `.mp4` filter): the recordings actually
appended. -/
def finalizeFileData (fd : FileData) : List Recording :=
  match createRecording fd with
  | some r => if shouldIncludeRecording r then [r] else []
  | none => []

/-- One iteration of the `_parse_recordings` loop body (lines 140-156) on the
state `(recordings, current_file)`:  strip the line; skip it if empty or a
`found=` line; if it starts with `items[` while the accumulator is complete,
finalise and reset the accumulator; then merge the line's recognised
`field=value` pair.  `none` models the uncaught `ValueError` from a malformed
`Channel` value. -/
def stepLine (st : List Recording × FileData) (raw : Chars) : Option (List Recording × FileData) :=
  let line := pyStrip raw
  if line.isEmpty || pyStartsWith line "found=".data then some st
  else
    let st1 :=
      if pyStartsWith line "items[".data && isCompleteRecording st.2 then
        (st.1 ++ finalizeFileData st.2, emptyFileData)
      else st
    match parseRecordingLine line with
    | none => none
    | some none => some st1
    | some (some kv) => some (st1.1, applyField st1.2 kv)

/-- The `for line in response_text.splitlines()` loop of `_parse_recordings`. -/
def parseLoop : List Chars → List Recording × FileData → Option (List Recording × FileData)
  | [], st => some st
  | l :: rest, st =>
    match stepLine st l with
    | none => none
    | some st1 => parseLoop rest st1

/-- src/amcrest_api.py `_parse_recordings` (lines 136-166): run the line loop,
then flush a complete trailing accumulator (lines 158-164). -/
def parseRecordings (text : Chars) : Option (List Recording) :=
  match parseLoop (pyLines text) ([], emptyFileData) with
  | none => none
  | some (recs, fd) =>
    some (recs ++ (if isCompleteRecording fd then finalizeFileData fd else []))

/-! ## src/amcrest_api.py — the cursor handshake -/

/-- Outcome of one HTTP request: a response text, or a raised exception
(connection error, timeout, `raise_for_status`). -/
inductive NetResult where
  | ok (body : Chars)
  | exn
deriving DecidableEq, Repr

/-- src/amcrest_api.py `_fetch_next_batch` (lines 108-134), given the
response text of the `findNextFile` call: return `""` (the stop signal) when
the leading `found=<n>` line is absent, malformed, or reports `n == 0`, and
the full response text otherwise. -/
def fetchNextBatchFilter (text : Chars) : Chars :=
  if !pyStartsWith (pyStrip (text.takeWhile (fun c => c != '\n'))) "found=".data then []
  else
    match pyInt (pyAfterFirst '=' (pyStrip (text.takeWhile (fun c => c != '\n')))) with
    | none => []
    | some n => if n == 0 then [] else text

/-- src/amcrest_api.py `_collect_all_batches` (lines 94-106) over the oracle's
list of successive `findNextFile` outcomes.  An exhausted oracle stands for a
server that reports `found=0` from then on (the loop would stop there anyway);
`.exn` is a raised `_get`, which propagates; a parse `none` (malformed
`Channel` value) also propagates. -/
def collectAllBatches : List NetResult → List Recording → Except Unit (List Recording)
  | [], recordings => .ok recordings
  | resp :: rest, recordings =>
    match resp with
    | .exn => .error ()
    | .ok body =>
      let nextResponse := fetchNextBatchFilter body
      if nextResponse.isEmpty then .ok recordings
      else
        match parseRecordings nextResponse with
        | none => .error ()
        | some batch =>
          if batch.isEmpty then .ok recordings
          else collectAllBatches rest (recordings ++ batch)

deriving instance DecidableEq for Except

/-- The network oracle for one `search` in which finder creation succeeded:
the outcome of the `findFile` call and of the successive `findNextFile`
calls. -/
structure SearchOracle where
  findFileResp : NetResult
  batchResps : List NetResult
deriving Repr

/-- What `_fetch_recordings` did: its result (or raised exception) and how
many `destroy` calls (`_close_finder`) were issued against the cursor. -/
structure SearchOutcome where
  result : Except Unit (List Recording)
  destroyCalls : Nat
deriving DecidableEq, Repr

/-- src/amcrest_api.py `_validate_search_response` condition (line 90):
`"ok" in response_text.lower()`. -/
def validateSearchOk (body : Chars) : Bool :=
  pyContains (pyLower body) "ok".data

/-- src/amcrest_api.py `_fetch_recordings` (lines 66-72) with
`_initiate_search`/`_validate_search_response` (lines 74-92) inlined, for a
search whose finder creation succeeded.  `_close_finder` swallows its own
failures, so a destroy call is counted unconditionally when reached.  Exit
paths, exactly as in the source (which has no `try/finally`):

* `findFile` itself raises: the exception propagates, no destroy call;
* the response lacks `ok`: `_close_finder` then `raise` — one destroy call;
* the batch loop raises: the exception propagates and the `_close_finder`
  on line 71 is never reached — zero destroy calls;
* normal completion: one destroy call. -/
def fetchRecordings (o : SearchOracle) : SearchOutcome :=
  match o.findFileResp with
  | .exn => ⟨.error (), 0⟩
  | .ok body =>
    if !validateSearchOk body then ⟨.error (), 1⟩
    else
      match collectAllBatches o.batchResps [] with
      | .error e => ⟨.error e, 0⟩
      | .ok recs => ⟨.ok recs, 1⟩

/-! ## src/amcrest_api.py — download_recording -/

/-- The oracle for one `download_recording` call: whether the GET (connect +
`raise_for_status`) succeeds, whether `mkdir` succeeds, the chunk sequence of
`iter_content`, and `failAt = some k` when the stream raises after `k` chunks
were written (`none` = the stream completes). -/
structure FetchOracle where
  httpOk : Bool
  mkdirOk : Bool
  chunks : List (List Nat)
  failAt : Option Nat
deriving DecidableEq, Repr

/-- The bytes on disk after the `for chunk in response.iter_content(...)` loop
writes the given chunks (`if chunk:` skips empty keep-alive chunks). -/
def writtenBytes (chunks : List (List Nat)) : List Nat :=
  (chunks.filter (fun c => !c.isEmpty)).flatten

/-- src/amcrest_api.py lines 229-230: `if output_path.exists():
output_path.unlink()`. -/
def unlinkIfExists : Option (List Nat) → Option (List Nat)
  | some _ => none
  | none => none

/-- src/amcrest_api.py `download_recording` (lines 209-231), returning the
call's result and the file state at `output_path` afterwards (`pre` is the
file state before the call; `open(..., "wb")` truncates it).  Any failure is
caught, the partial file unlinked, and a `RuntimeError` re-raised
(`Except.error`). -/
def downloadRecording (o : FetchOracle) (pre : Option (List Nat)) :
    Except Unit Bool × Option (List Nat) :=
  if !o.httpOk then (.error (), unlinkIfExists pre)
  else if !o.mkdirOk then (.error (), unlinkIfExists pre)
  else
    match o.failAt with
    | some k => (.error (), unlinkIfExists (some (writtenBytes (o.chunks.take k))))
    | none => (.ok true, some (writtenBytes o.chunks))

/-- Whether a `download_recording` call with this oracle raises. -/
def oracleFails (o : FetchOracle) : Bool :=
  !o.httpOk || !o.mkdirOk || o.failAt.isSome

/-! ## src/downloader.py -/

/-- src/downloader.py `DEFAULT_MAX_RETRIES` (line 10). -/
def DEFAULT_MAX_RETRIES : Nat := 3

/-- What `_download_with_retry` did: its returned value (or raised exception),
the final file state at the destination path, and how many
`download_recording` attempts were made. -/
structure RetryOutcome where
  result : Except Unit Bool
  fileState : Option (List Nat)
  attemptsMade : Nat
deriving DecidableEq, Repr

/-- The `for attempt in range(self.DEFAULT_MAX_RETRIES)` loop of
`_download_with_retry` (src/downloader.py lines 82-90): each attempt `a`
consults its own oracle `oracles a`; a success returns; a failure re-raises
on the last attempt and otherwise continues; falling off the loop would
`return False`. -/
def downloadWithRetryGo (oracles : Nat → FetchOracle) :
    List Nat → Option (List Nat) → Nat → RetryOutcome
  | [], st, made => ⟨.ok false, st, made⟩
  | attempt :: rest, st, made =>
    match downloadRecording (oracles attempt) st with
    | (.ok b, st1) => ⟨.ok b, st1, made + 1⟩
    | (.error e, st1) =>
      if attempt == DEFAULT_MAX_RETRIES - 1 then ⟨.error e, st1, made + 1⟩
      else downloadWithRetryGo oracles rest st1 (made + 1)

/-- src/downloader.py `_download_with_retry` (lines 82-90). -/
def downloadWithRetry (oracles : Nat → FetchOracle) (pre : Option (List Nat)) :
    RetryOutcome :=
  downloadWithRetryGo oracles (List.range DEFAULT_MAX_RETRIES) pre 0

/-- `recording.start_time.strftime("%Y%m%d_%H%M%S")` (src/downloader.py
line 79). -/
def strftimeCompact (d : PyDateTime) : Chars :=
  fmt04 d.year ++ pad2 d.month ++ pad2 d.day ++ ['_'] ++
    pad2 d.hour ++ pad2 d.minute ++ pad2 d.second

/-- src/downloader.py `_generate_filename` (lines 76-80):
`output_dir / f"recording_{index:04d}_{timestamp}.mp4"`. -/
def generateFilename (outputDir : Chars) (r : Recording) (idx : Nat) : Chars :=
  outputDir ++ "/recording_".data ++ fmt04 idx ++ ['_'] ++
    strftimeCompact r.start_time ++ ".mp4".data

/-- Placeholder for out-of-range list indexing (never reached when the
completion order is a permutation of the task indices). -/
def defaultRecording : Recording :=
  ⟨⟨1970, 1, 1, 0, 0, 0⟩, ⟨1970, 1, 1, 0, 0, 0⟩, [], 0⟩

/-- The derived output path of task `i` (the `futures` dict maps each future
to its `(recording, output_file)`). -/
def taskPath (recs : List Recording) (outputDir : Chars) (i : Nat) : Chars :=
  generateFilename outputDir (recs.getD i defaultRecording) i

/-- The value of `future.result()` for task `i`: the per-task retry wrapper's
result, fed by the task's own per-attempt oracles `oracles i` (a fresh
destination file, so the pre-state is `none`). -/
def taskResult (oracles : Nat → Nat → FetchOracle) (i : Nat) : Except Unit Bool :=
  (downloadWithRetry (oracles i) none).result

/-- src/downloader.py `_await_completion` (lines 45-71): fold over the futures
in completion order; append the output path when `future.result()` is truthy
(a raised exception is caught and skipped); advance the completed counter and
invoke the progress callback once per future.  Returns the collected paths
and the `(completed, total)` progress events in invocation order. -/
def awaitCompletion (path : Nat → Chars) (result : Nat → Except Unit Bool) :
    List Nat → List Chars → Nat → Nat → List Chars × List (Nat × Nat)
  | [], files, _, _ => (files, [])
  | t :: rest, files, completed, total =>
    let files1 :=
      match result t with
      | .ok true => files ++ [path t]
      | _ => files
    let next := awaitCompletion path result rest files1 (completed + 1) total
    (next.1, (completed + 1, total) :: next.2)

/-- Python `sorted` inner step: insert into a sorted prefix. -/
def pyInsert (x : Chars) : List Chars → List Chars
  | [] => [x]
  | y :: ys => if lexLe x y then x :: y :: ys else y :: pyInsert x ys

/-- Python `sorted(...)` on path strings: an ascending sort under `lexLe`
(timsort's stability is irrelevant here — the filenames embed distinct
indices). -/
def pySorted : List Chars → List Chars
  | [] => []
  | x :: xs => pyInsert x (pySorted xs)

/-- What `download_all` did: the returned paths, whether the destination
directory was created, and the progress events emitted. -/
structure PipelineOutcome where
  paths : List Chars
  dirCreated : Bool
  events : List (Nat × Nat)
deriving DecidableEq, Repr

/-- src/downloader.py `download_all` (lines 16-30): empty input returns `[]`
before any side effect; otherwise create the directory, dispatch one task per
recording, await completion in the pool's completion `order`, and return the
successful paths sorted. -/
def downloadAll (recs : List Recording) (outputDir : Chars)
    (oracles : Nat → Nat → FetchOracle) (order : List Nat) : PipelineOutcome :=
  match recs with
  | [] => ⟨[], false, []⟩
  | _ :: _ =>
    let c := awaitCompletion (taskPath recs outputDir) (taskResult oracles)
      order [] 0 recs.length
    ⟨pySorted c.1, true, c.2⟩

/-- The `Prop` form of `lexLe`, used with Mathlib's `List.Sorted`. -/
abbrev chLe (s t : Chars) : Prop := lexLe s t = true

/-- A batch body holding two entries, each with file path, start time and end
time, in that field order (file path and start time precede end time). -/
def cexBatchMixed : Chars :=
  ("items[0].FilePath=/a.mp4\n" ++
   "items[0].StartTime=2024-01-01 00:00:00\n" ++
   "items[0].EndTime=2024-01-01 00:10:00\n" ++
   "items[1].FilePath=/b.mp4\n" ++
   "items[1].StartTime=2024-01-01 01:00:00\n" ++
   "items[1].EndTime=2024-01-01 01:10:00").data

/-- A batch reporting `found=1` whose single entry is excluded by the `.mp4`
content filter (a `.dav` recording): it parses to zero recordings. -/
def cexBatchDav : Chars :=
  ("found=1\n" ++
   "items[0].Channel=0\n" ++
   "items[0].StartTime=2024-01-01 00:00:00\n" ++
   "items[0].EndTime=2024-01-01 00:10:00\n" ++
   "items[0].FilePath=/r1.dav").data

/-- A batch reporting `found=1` with one includable `.mp4` recording. -/
def cexBatchMp4 : Chars :=
  ("found=1\n" ++
   "items[0].Channel=0\n" ++
   "items[0].StartTime=2024-01-01 01:00:00\n" ++
   "items[0].EndTime=2024-01-01 01:10:00\n" ++
   "items[0].FilePath=/r2.mp4").data

/-- A batch on which the loop continues: the `found=` filter passes the body
through and at least one recording is parsed. -/
def isProductiveBatch (b : Chars) : Bool :=
  !(fetchNextBatchFilter b).isEmpty &&
    (match parseRecordings b with | some (_ :: _) => true | _ => false)

/-- A batch on which the loop stops: the server reports no more results
(`found=0`, absent or malformed) or the body parses to zero recordings. -/
def isStopBatch (b : Chars) : Bool :=
  (fetchNextBatchFilter b).isEmpty ||
    (match parseRecordings b with | some [] => true | _ => false)

/-- 10001 identical recordings: enough input for the `%04d` index of
`_generate_filename` to overflow four digits. -/
def manyRecs : List Recording := List.replicate 10001 defaultRecording

/-- Recogniser for the device's fixed textual timestamp format
`YYYY-MM-DD HH:MM:SS` (no timezone): 19 characters, digits in the date/time
positions, `-`, space and `:` separators. -/
def isAmcrestFormat (s : Chars) : Bool :=
  match s with
  | [y1, y2, y3, y4, a1, m1, m2, a2, d1, d2, sp, h1, h2, b1, i1, i2, b2, s1, s2] =>
    [y1, y2, y3, y4, m1, m2, d1, d2, h1, h2, i1, i2, s1, s2].all Char.isDigit &&
      a1 == '-' && a2 == '-' && sp == ' ' && b1 == ':' && b2 == ':'
  | _ => false

/-- Field bounds a real Python `datetime` always satisfies (`datetime`
enforces `1 ≤ year ≤ 9999` and the usual calendar ranges). -/
abbrev wallInRange (d : PyDateTime) : Prop :=
  d.year < 10000 ∧ d.month < 100 ∧ d.day < 100 ∧
    d.hour < 100 ∧ d.minute < 100 ∧ d.second < 100

/-! ## Order infrastructure for `lexLt` / `lexLe` -/

theorem char_eq_of_not_lt {a b : Char} (h1 : ¬ a < b) (h2 : ¬ b < a) : a = b :=
  le_antisymm (not_lt.mp h2) (not_lt.mp h1)

theorem lexLt_irrefl : ∀ l : Chars, lexLt l l = false
  | [] => rfl
  | a :: as => by simp [lexLt, lt_irrefl, lexLt_irrefl as]

theorem lexLt_asymm : ∀ {s t : Chars}, lexLt s t = true → lexLt t s = false
  | [], [], h => by simp [lexLt] at h
  | [], _ :: _, _ => rfl
  | _ :: _, [], h => by simp [lexLt] at h
  | a :: as, b :: bs, h => by
    by_cases hab : a < b
    · simp [lexLt, hab, lt_asymm hab]
    · by_cases hba : b < a
      · simp [lexLt, hab, hba] at h
      · simp only [lexLt, if_neg hab, if_neg hba] at h
        simp [lexLt, hab, hba, lexLt_asymm h]

theorem eq_of_not_lexLt : ∀ {s t : Chars}, lexLt s t = false → lexLt t s = false → s = t
  | [], [], _, _ => rfl
  | [], _ :: _, h, _ => by simp [lexLt] at h
  | _ :: _, [], _, h => by simp [lexLt] at h
  | a :: as, b :: bs, h1, h2 => by
    by_cases hab : a < b
    · simp [lexLt, hab] at h1
    · by_cases hba : b < a
      · simp [lexLt, hba, hab] at h2
      · simp only [lexLt, if_neg hab, if_neg hba] at h1 h2
        rw [char_eq_of_not_lt hab hba, eq_of_not_lexLt h1 h2]

theorem lexLt_trans : ∀ {s t u : Chars},
    lexLt s t = true → lexLt t u = true → lexLt s u = true
  | [], _, _ :: _, _, _ => rfl
  | [], _ :: _, [], _, h2 => by simp [lexLt] at h2
  | _ :: _, [], _, h1, _ => by simp [lexLt] at h1
  | _ :: _, _ :: _, [], _, h2 => by simp [lexLt] at h2
  | [], [], _, h1, _ => by simp [lexLt] at h1
  | a :: as, b :: bs, c :: cs, h1, h2 => by
    by_cases hab : a < b
    · by_cases hbc : b < c
      · simp [lexLt, lt_trans hab hbc]
      · by_cases hcb : c < b
        · simp [lexLt, hbc, hcb] at h2
        · rw [char_eq_of_not_lt hbc hcb] at hab
          simp [lexLt, hab]
    · by_cases hba : b < a
      · simp [lexLt, hab, hba] at h1
      · rw [← char_eq_of_not_lt hab hba] at h2
        simp only [lexLt, if_neg hab, if_neg hba] at h1
        by_cases hac : a < c
        · simp [lexLt, hac]
        · by_cases hca : c < a
          · simp [lexLt, hac, hca] at h2
          · simp only [lexLt, if_neg hac, if_neg hca] at h2 ⊢
            exact lexLt_trans h1 h2

theorem lexLe_refl (s : Chars) : lexLe s s = true := by
  simp [lexLe, lexLt_irrefl]

theorem lexLe_of_lexLt {s t : Chars} (h : lexLt s t = true) : lexLe s t = true := by
  simp [lexLe, lexLt_asymm h]

theorem lexLe_total (s t : Chars) : lexLe s t = true ∨ lexLe t s = true := by
  rcases (lexLt t s).eq_false_or_eq_true with h | h
  · exact Or.inr (by simp [lexLe, lexLt_asymm h])
  · exact Or.inl (by simp [lexLe, h])

theorem lexLe_antisymm {s t : Chars} (h1 : lexLe s t = true) (h2 : lexLe t s = true) :
    s = t := by
  simp only [lexLe, Bool.not_eq_true'] at h1 h2
  exact eq_of_not_lexLt h2 h1

theorem lexLe_trans {s t u : Chars} (h1 : lexLe s t = true) (h2 : lexLe t u = true) :
    lexLe s u = true := by
  simp only [lexLe, Bool.not_eq_true'] at h1 h2 ⊢
  by_contra hus
  rw [Bool.not_eq_false] at hus
  rcases (lexLt t u).eq_false_or_eq_true with htu | htu
  · rw [lexLt_trans htu hus] at h1
    simp at h1
  · have heq : t = u := eq_of_not_lexLt htu h2
    rw [heq, hus] at h1
    simp at h1

theorem pyInsert_perm (x : Chars) : ∀ l : List Chars, (pyInsert x l).Perm (x :: l)
  | [] => List.Perm.refl _
  | y :: ys => by
    by_cases h : lexLe x y = true
    · simp [pyInsert, h]
    · simp only [pyInsert, if_neg h]
      exact ((pyInsert_perm x ys).cons y).trans (List.Perm.swap x y ys)

theorem pySorted_perm : ∀ l : List Chars, (pySorted l).Perm l
  | [] => List.Perm.refl _
  | x :: xs => (pyInsert_perm x (pySorted xs)).trans ((pySorted_perm xs).cons x)

theorem pyInsert_sorted (x : Chars) :
    ∀ {l : List Chars}, List.Sorted chLe l → List.Sorted chLe (pyInsert x l)
  | [], _ => List.sorted_singleton x
  | y :: ys, h => by
    rw [List.sorted_cons] at h
    by_cases hxy : lexLe x y = true
    · rw [pyInsert, if_pos hxy, List.sorted_cons]
      refine ⟨fun b hb => ?_, List.sorted_cons.mpr h⟩
      rcases List.mem_cons.mp hb with rfl | hb
      · exact hxy
      · exact lexLe_trans hxy (h.1 b hb)
    · rw [pyInsert, if_neg hxy, List.sorted_cons]
      refine ⟨fun b hb => ?_, pyInsert_sorted x h.2⟩
      rcases List.mem_cons.mp ((pyInsert_perm x ys).mem_iff.mp hb) with hbx | hb2
      · rw [hbx]
        rcases lexLe_total x y with hxy2 | hyx
        · exact absurd hxy2 hxy
        · exact hyx
      · exact h.1 b hb2

theorem pySorted_sorted : ∀ l : List Chars, List.Sorted chLe (pySorted l)
  | [] => List.sorted_nil
  | x :: xs => pyInsert_sorted x (pySorted_sorted xs)

/-! ## Lemmas on download_recording and the retry wrapper -/

theorem unlinkIfExists_eq_none (st : Option (List Nat)) : unlinkIfExists st = none := by
  cases st <;> rfl

/-- The skipped empty keep-alive chunks do not change the written bytes: the
file content of a completed stream is the full payload. -/
theorem writtenBytes_eq_flatten : ∀ chunks : List (List Nat),
    writtenBytes chunks = chunks.flatten
  | [] => rfl
  | [] :: cs => by
    simpa [writtenBytes, List.filter_cons] using writtenBytes_eq_flatten cs
  | (b :: bs) :: cs => by
    have ih := writtenBytes_eq_flatten cs
    simp only [writtenBytes, List.filter_cons] at ih ⊢
    simp [ih]

theorem downloadRecording_of_fails {o : FetchOracle} (pre : Option (List Nat))
    (h : oracleFails o = true) : downloadRecording o pre = (.error (), none) := by
  rcases o with ⟨httpOk, mkdirOk, chunks, failAt⟩
  rcases httpOk with _ | _
  · simp [downloadRecording, unlinkIfExists_eq_none]
  · rcases mkdirOk with _ | _
    · simp [downloadRecording, unlinkIfExists_eq_none]
    · rcases failAt with _ | k
      · simp [oracleFails] at h
      · simp [downloadRecording, unlinkIfExists_eq_none]

theorem downloadRecording_of_ok {o : FetchOracle} (pre : Option (List Nat))
    (h : oracleFails o = false) :
    downloadRecording o pre = (.ok true, some (writtenBytes o.chunks)) := by
  rcases o with ⟨httpOk, mkdirOk, chunks, failAt⟩
  rcases httpOk with _ | _
  · simp [oracleFails] at h
  · rcases mkdirOk with _ | _
    · simp [oracleFails] at h
    · rcases failAt with _ | k
      · simp [downloadRecording]
      · simp [oracleFails] at h

theorem downloadWithRetryGo_cons_ok {oracles : Nat → FetchOracle} {attempt : Nat}
    {rest : List Nat} {st : Option (List Nat)} {made : Nat}
    (h : oracleFails (oracles attempt) = false) :
    downloadWithRetryGo oracles (attempt :: rest) st made =
      ⟨.ok true, some (writtenBytes (oracles attempt).chunks), made + 1⟩ := by
  simp [downloadWithRetryGo, downloadRecording_of_ok st h]

theorem downloadWithRetryGo_cons_fail_last {oracles : Nat → FetchOracle}
    {rest : List Nat} {st : Option (List Nat)} {made : Nat}
    (h : oracleFails (oracles (DEFAULT_MAX_RETRIES - 1)) = true) :
    downloadWithRetryGo oracles ((DEFAULT_MAX_RETRIES - 1) :: rest) st made =
      ⟨.error (), none, made + 1⟩ := by
  simp [downloadWithRetryGo, downloadRecording_of_fails st h]

theorem downloadWithRetryGo_cons_fail {oracles : Nat → FetchOracle} {attempt : Nat}
    {rest : List Nat} {st : Option (List Nat)} {made : Nat}
    (h : oracleFails (oracles attempt) = true) (hne : attempt ≠ DEFAULT_MAX_RETRIES - 1) :
    downloadWithRetryGo oracles (attempt :: rest) st made =
      downloadWithRetryGo oracles rest none (made + 1) := by
  simp [downloadWithRetryGo, downloadRecording_of_fails st h, hne]

/-! ## Claim theorems (first group) -/

/-- C1: the spec requires exactly one destroy call on *every* exit path of a
search whose finder creation succeeded, including an exception raised during
the batch loop.  The code has no `try/finally` in `_fetch_recordings`, so on
that path the cursor is leaked.  Evaluation of the three exit paths: a raised
`findNextFile` after a successful search start propagates with **zero**
destroy calls (the violation); the rejection path and the normal path each
issue exactly one. -/
theorem C1_destroy_on_every_exit_path :
    fetchRecordings ⟨.ok "OK".data, [.exn]⟩ = ⟨.error (), 0⟩ ∧
    fetchRecordings ⟨.ok "Error 400".data, []⟩ = ⟨.error (), 1⟩ ∧
    fetchRecordings ⟨.ok "OK".data, []⟩ = ⟨.ok [], 1⟩ := by
  exact ⟨rfl, rfl, rfl⟩

/-- C4: after any single `download_recording` call the destination path holds
either the fully streamed payload (and the call returned `True`) or no file at
all (and the call raised); a truncated file is never left behind, whatever the
file state before the call was. -/
theorem C4_full_payload_or_no_file (o : FetchOracle) (pre : Option (List Nat)) :
    ((downloadRecording o pre).1 = .ok true ∧
      (downloadRecording o pre).2 = some o.chunks.flatten) ∨
    ((downloadRecording o pre).1 = .error () ∧ (downloadRecording o pre).2 = none) := by
  rcases (oracleFails o).eq_false_or_eq_true with h | h
  · right
    rw [downloadRecording_of_fails pre h]
    exact ⟨rfl, rfl⟩
  · left
    rw [downloadRecording_of_ok pre h, writtenBytes_eq_flatten]
    exact ⟨rfl, rfl⟩

/-- C5: the per-task retry wrapper makes at most 3 attempts; an oracle that
fails attempts 1 and 2 but succeeds on attempt 3 yields success after exactly
3 attempts; an oracle failing all 3 attempts yields a raised failure after
exactly 3 attempts, leaving no file at the destination path.  Each task's
outcome is a function of its own oracles alone, so no other task is
affected. -/
theorem C5_retry_ceiling (oracles : Nat → FetchOracle) (pre : Option (List Nat)) :
    (downloadWithRetry oracles pre).attemptsMade ≤ 3 ∧
    (oracleFails (oracles 0) = true → oracleFails (oracles 1) = true →
      oracleFails (oracles 2) = false →
      (downloadWithRetry oracles pre).result = .ok true ∧
      (downloadWithRetry oracles pre).attemptsMade = 3) ∧
    ((∀ i, i < 3 → oracleFails (oracles i) = true) →
      (downloadWithRetry oracles pre).result = .error () ∧
      (downloadWithRetry oracles pre).fileState = none ∧
      (downloadWithRetry oracles pre).attemptsMade = 3) := by
  have hr : List.range DEFAULT_MAX_RETRIES = [0, 1, 2] := rfl
  refine ⟨?_, ?_, ?_⟩
  · unfold downloadWithRetry
    rw [hr]
    rcases (oracleFails (oracles 0)).eq_false_or_eq_true with h0 | h0
    · rw [downloadWithRetryGo_cons_fail h0 (by decide)]
      rcases (oracleFails (oracles 1)).eq_false_or_eq_true with h1 | h1
      · rw [downloadWithRetryGo_cons_fail h1 (by decide)]
        rcases (oracleFails (oracles 2)).eq_false_or_eq_true with h2 | h2
        · rw [show (2 : Nat) = DEFAULT_MAX_RETRIES - 1 from rfl,
            downloadWithRetryGo_cons_fail_last h2]
        · rw [downloadWithRetryGo_cons_ok h2]
      · rw [downloadWithRetryGo_cons_ok h1]
        exact by norm_num
    · rw [downloadWithRetryGo_cons_ok h0]
      exact by norm_num
  · intro h0 h1 h2
    unfold downloadWithRetry
    rw [hr, downloadWithRetryGo_cons_fail h0 (by decide),
      downloadWithRetryGo_cons_fail h1 (by decide), downloadWithRetryGo_cons_ok h2]
    exact ⟨rfl, rfl⟩
  · intro hall
    unfold downloadWithRetry
    rw [hr, downloadWithRetryGo_cons_fail (hall 0 (by decide)) (by decide),
      downloadWithRetryGo_cons_fail (hall 1 (by decide)) (by decide),
      show (2 : Nat) = DEFAULT_MAX_RETRIES - 1 from rfl,
      downloadWithRetryGo_cons_fail_last (hall 2 (by decide))]
    exact ⟨rfl, rfl, rfl⟩

/-- C5 witness: an oracle family failing attempts 1 and 2 and succeeding on
attempt 3 succeeds; an all-failing family raises and leaves no file. -/
theorem C5_retry_ceiling_witness :
    (downloadWithRetry
        (fun i => if i < 2 then ⟨false, true, [], none⟩ else ⟨true, true, [[7]], none⟩)
        none).result = .ok true ∧
    (downloadWithRetry (fun _ => ⟨false, true, [], none⟩) none).result = .error () ∧
    (downloadWithRetry (fun _ => ⟨false, true, [], none⟩) none).fileState = none := by
  refine ⟨?_, ?_, ?_⟩
  · exact ((C5_retry_ceiling
      (fun i => if i < 2 then ⟨false, true, [], none⟩ else ⟨true, true, [[7]], none⟩)
      none).2.1 rfl rfl rfl).1
  · exact ((C5_retry_ceiling (fun _ => ⟨false, true, [], none⟩) none).2.2
      (fun i _ => rfl)).1
  · exact ((C5_retry_ceiling (fun _ => ⟨false, true, [], none⟩) none).2.2
      (fun i _ => rfl)).2.1

/-- C8: `download_all` on an empty recordings list returns the empty list
immediately with no side effects: the destination directory is not created
and the progress sink is never invoked. -/
theorem C8_downloadAll_empty (outputDir : Chars) (oracles : Nat → Nat → FetchOracle)
    (order : List Nat) :
    downloadAll [] outputDir oracles order = ⟨[], false, []⟩ := rfl

/-- C10: `download_recording` never returns `False` — every call either
returns `True` or raises — and consequently the `return False` fallback after
the retry loop in `_download_with_retry` is unreachable: the retry wrapper
also only ever returns `True` or raises. -/
theorem C10_return_false_unreachable :
    (∀ (o : FetchOracle) (pre : Option (List Nat)),
      (downloadRecording o pre).1 = .ok true ∨ (downloadRecording o pre).1 = .error ()) ∧
    (∀ (oracles : Nat → FetchOracle) (pre : Option (List Nat)),
      (downloadWithRetry oracles pre).result = .ok true ∨
      (downloadWithRetry oracles pre).result = .error ()) := by
  constructor
  · intro o pre
    rcases (oracleFails o).eq_false_or_eq_true with h | h
    · exact Or.inr (by rw [downloadRecording_of_fails pre h])
    · exact Or.inl (by rw [downloadRecording_of_ok pre h])
  · intro oracles pre
    have hr : List.range DEFAULT_MAX_RETRIES = [0, 1, 2] := rfl
    unfold downloadWithRetry
    rw [hr]
    rcases (oracleFails (oracles 0)).eq_false_or_eq_true with h0 | h0
    · rw [downloadWithRetryGo_cons_fail h0 (by decide)]
      rcases (oracleFails (oracles 1)).eq_false_or_eq_true with h1 | h1
      · rw [downloadWithRetryGo_cons_fail h1 (by decide)]
        rcases (oracleFails (oracles 2)).eq_false_or_eq_true with h2 | h2
        · rw [show (2 : Nat) = DEFAULT_MAX_RETRIES - 1 from rfl,
            downloadWithRetryGo_cons_fail_last h2]
          exact Or.inr rfl
        · rw [downloadWithRetryGo_cons_ok h2]; exact Or.inl rfl
      · rw [downloadWithRetryGo_cons_ok h1]; exact Or.inl rfl
    · rw [downloadWithRetryGo_cons_ok h0]; exact Or.inl rfl

/-! ## C9: the device timestamp format -/

theorem digitChar_isDigit : ∀ m, m < 10 → (Nat.digitChar m).isDigit = true := by decide

theorem digitChar_mod10_isDigit (n : Nat) : (n % 10).digitChar.isDigit = true :=
  digitChar_isDigit _ (Nat.mod_lt _ (by norm_num))

theorem isAmcrestFormat_strftime {d : PyDateTime} (h : wallInRange d) :
    isAmcrestFormat (strftimeAmcrest d) = true := by
  obtain ⟨h1, h2, h3, h4, h5, h6⟩ := h
  simp only [strftimeAmcrest, fmt04, four0, pad2, two0, if_pos h1, if_pos h2, if_pos h3,
    if_pos h4, if_pos h5, if_pos h6, List.cons_append, List.nil_append]
  simp [isAmcrestFormat, digitChar_mod10_isDigit]

/-- C9: serializing a `TimeRange` to the device protocol formats both
timestamps from their wall-clock fields alone — an aware timestamp has its
offset stripped (`replace(tzinfo=None)`), not converted, and a naive one is
formatted as-is — and (under the field bounds every real `datetime`
satisfies) each result is in the fixed textual format `YYYY-MM-DD HH:MM:SS`
with no timezone. -/
theorem C9_to_amcrest_format_strips_tz (tr : TimeRange)
    (hs : wallInRange tr.start.wall) (he : wallInRange tr.«end».wall) :
    tr.to_amcrest_format =
      (strftimeAmcrest tr.start.wall, strftimeAmcrest tr.«end».wall) ∧
    isAmcrestFormat tr.to_amcrest_format.1 = true ∧
    isAmcrestFormat tr.to_amcrest_format.2 = true := by
  have hfmt : tr.to_amcrest_format =
      (strftimeAmcrest tr.start.wall, strftimeAmcrest tr.«end».wall) := by
    simp only [TimeRange.to_amcrest_format, replaceTzNone]
    cases htz1 : tr.start.tzinfo.isSome <;> cases htz2 : tr.«end».tzinfo.isSome <;> simp
  refine ⟨hfmt, ?_, ?_⟩
  · rw [hfmt]
    exact isAmcrestFormat_strftime hs
  · rw [hfmt]
    exact isAmcrestFormat_strftime he

/-- C9 witness: an aware start (offset +300 minutes) and a naive end; the
offset is dropped, the wall-clock fields are kept, and both outputs are in
the fixed format. -/
theorem C9_to_amcrest_format_strips_tz_witness :
    wallInRange (PyDateTime.mk 2024 6 15 23 59 7) ∧
    wallInRange (PyDateTime.mk 2024 6 16 0 5 0) ∧
    ((TimeRange.mk ⟨⟨2024, 6, 15, 23, 59, 7⟩, some 300⟩ ⟨⟨2024, 6, 16, 0, 5, 0⟩, none⟩).to_amcrest_format =
        (strftimeAmcrest ⟨2024, 6, 15, 23, 59, 7⟩, strftimeAmcrest ⟨2024, 6, 16, 0, 5, 0⟩) ∧
      isAmcrestFormat (TimeRange.mk ⟨⟨2024, 6, 15, 23, 59, 7⟩, some 300⟩ ⟨⟨2024, 6, 16, 0, 5, 0⟩, none⟩).to_amcrest_format.1 = true ∧
      isAmcrestFormat (TimeRange.mk ⟨⟨2024, 6, 15, 23, 59, 7⟩, some 300⟩ ⟨⟨2024, 6, 16, 0, 5, 0⟩, none⟩).to_amcrest_format.2 = true) :=
  ⟨by decide, by decide,
    C9_to_amcrest_format_strips_tz _ (by decide) (by decide)⟩

/-! ## C7: progress events -/

/-- The progress events of `_await_completion` are `(completed + 1, total)`,
`(completed + 2, total)`, ... — one per future, independent of the tasks'
results and of the files accumulator. -/
theorem awaitCompletion_events (path : Nat → Chars) (result : Nat → Except Unit Bool) :
    ∀ (order : List Nat) (files : List Chars) (completed total : Nat),
      (awaitCompletion path result order files completed total).2 =
        (List.range' (completed + 1) order.length).map (fun k => (k, total))
  | [], _, _, _ => rfl
  | t :: rest, files, completed, total => by
    have ih := awaitCompletion_events path result rest
      (match result t with | .ok true => files ++ [path t] | _ => files)
      (completed + 1) total
    simp only [awaitCompletion, ih, List.length_cons, List.range'_succ, List.map_cons]

/-- C7: over `N` input recordings the progress sink is invoked exactly once
per task — `N` invocations in total, failures included — with
`completed_count` equal to `1, 2, ..., N` in invocation order and
`total_count` always `N`. -/
theorem C7_progress_once_per_task (recs : List Recording) (outputDir : Chars)
    (oracles : Nat → Nat → FetchOracle) (order : List Nat)
    (hperm : order.Perm (List.range recs.length)) :
    (downloadAll recs outputDir oracles order).events =
      (List.range recs.length).map (fun k => (k + 1, recs.length)) := by
  have hlen : order.length = recs.length := by
    simpa using hperm.length_eq
  cases recs with
  | nil =>
    have : order = [] := List.length_eq_zero.mp (by simpa using hlen)
    subst this
    rfl
  | cons r rs =>
    simp only [downloadAll, awaitCompletion_events, hlen, List.range'_eq_map_range,
      List.map_map]
    apply List.map_congr_left
    intro k _
    simp only [Function.comp_apply, Prod.mk.injEq, and_true]
    omega

/-- C7 witness: two tasks, one failing, completing out of input order: the
sink sees exactly `(1, 2)` then `(2, 2)`. -/
theorem C7_progress_once_per_task_witness :
    ([1, 0] : List Nat).Perm (List.range ([defaultRecording, defaultRecording] : List Recording).length) ∧
    (downloadAll [defaultRecording, defaultRecording] "/out".data
        (fun i _ => if i == 0 then ⟨false, true, [], none⟩ else ⟨true, true, [[1]], none⟩)
        [1, 0]).events =
      (List.range ([defaultRecording, defaultRecording] : List Recording).length).map
        (fun k => (k + 1, ([defaultRecording, defaultRecording] : List Recording).length)) :=
  ⟨by decide, C7_progress_once_per_task _ _ _ _ (by decide)⟩

/-! ## C2: where the batch parser finalizes -/

theorem pyStartsWith_items_ne_found {l : Chars}
    (h : pyStartsWith l "items[".data = true) :
    pyStartsWith l "found=".data = false := by
  cases l with
  | nil => exact absurd h (by decide)
  | cons c cs =>
    have hi : ('i' == c) = true := by
      have h2 : pyIsPrefixOf "items[".data (c :: cs) = true := h
      rw [show "items[".data = 'i' :: "tems[".data from rfl] at h2
      simp only [pyIsPrefixOf, Bool.and_eq_true] at h2
      exact h2.1
    have hc : c = 'i' := (beq_iff_eq.mp hi).symm
    subst hc
    show pyIsPrefixOf "found=".data ('i' :: cs) = false
    rw [show "found=".data = 'f' :: "ound=".data from rfl]
    simp [pyIsPrefixOf]

theorem pyStartsWith_items_not_isEmpty {l : Chars}
    (h : pyStartsWith l "items[".data = true) : l.isEmpty = false := by
  cases l with
  | nil => exact absurd h (by decide)
  | cons c cs => rfl

/-- C2: corrected finalization rule of `_parse_recordings`.  (1) At any line
whose stripped form starts with the entry-index token `items[` — whether or
not it begins a *new* entry — while the accumulator holds both a file path
and a start time, the step finalizes and resets the accumulator first (it
factors through the flush).  (2) At every other line the collected list is
left unchanged: no finalization happens anywhere else.  (3) After the loop a
trailing accumulator lacking a file path or a start time is dropped rather
than raising. -/
theorem C2_finalize_at_any_items_line :
    (∀ (recs : List Recording) (fd : FileData) (line : Chars),
      pyStartsWith (pyStrip line) "items[".data = true →
      isCompleteRecording fd = true →
      stepLine (recs, fd) line =
        stepLine (recs ++ finalizeFileData fd, emptyFileData) line) ∧
    (∀ (recs recs1 : List Recording) (fd fd1 : FileData) (line : Chars),
      (pyStartsWith (pyStrip line) "items[".data = false ∨
        isCompleteRecording fd = false) →
      stepLine (recs, fd) line = some (recs1, fd1) → recs1 = recs) ∧
    (∀ (text : Chars) (recs : List Recording) (fd : FileData),
      parseLoop (pyLines text) ([], emptyFileData) = some (recs, fd) →
      isCompleteRecording fd = false →
      parseRecordings text = some recs) := by
  refine ⟨?_, ?_, ?_⟩
  · intro recs fd line hstart hcomp
    have hne : (pyStrip line).isEmpty = false := pyStartsWith_items_not_isEmpty hstart
    have hfound : pyStartsWith (pyStrip line) "found=".data = false :=
      pyStartsWith_items_ne_found hstart
    have hcomp' := hcomp
    rw [isCompleteRecording, Bool.and_eq_true] at hcomp'
    obtain ⟨hfp, hst⟩ := hcomp'
    simp [stepLine, hne, hfound, hstart, hcomp, hfp, hst, isCompleteRecording,
      emptyFileData]
  · intro recs recs1 fd fd1 line hcond heq
    by_cases hskip :
        ((pyStrip line).isEmpty || pyStartsWith (pyStrip line) "found=".data) = true
    · simp only [stepLine, hskip, if_true] at heq
      simp only [Option.some.injEq, Prod.mk.injEq] at heq
      exact heq.1.symm
    · have hskip' :
          ((pyStrip line).isEmpty || pyStartsWith (pyStrip line) "found=".data) = false :=
        by simpa using hskip
      have hfin :
          (pyStartsWith (pyStrip line) "items[".data && isCompleteRecording fd) = false := by
        rcases hcond with h | h <;> simp [h]
      simp only [stepLine, hskip', hfin, Bool.false_eq_true, if_false] at heq
      cases hp : parseRecordingLine (pyStrip line) with
      | none => rw [hp] at heq; simp at heq
      | some o =>
        cases o with
        | none =>
          rw [hp] at heq
          simp only [Option.some.injEq, Prod.mk.injEq] at heq
          exact heq.1.symm
        | some kv =>
          rw [hp] at heq
          simp only [Option.some.injEq, Prod.mk.injEq] at heq
          exact heq.1.symm
  · intro text recs fd hloop hncomp
    simp only [parseRecordings, hloop, hncomp, Bool.false_eq_true, if_false,
      List.append_nil]

/-- C2 witness for the corrected rule.  (1) is applied at the line
`items[0].EndTime=...`, which continues entry 0 rather than starting a new
one, with an accumulator already holding entry 0's file path and start time:
the step still finalizes there (mid-entry).  (2) is applied at that same line
with an incomplete accumulator.  (3) is applied to a response whose trailing
entry lacks a start time. -/
theorem C2_finalize_at_any_items_line_witness :
    stepLine ([], ⟨some "/a.mp4".data, some "2024-01-01 00:00:00".data, none, none⟩)
        "items[0].EndTime=2024-01-01 00:10:00".data =
      stepLine
        ([] ++ finalizeFileData
          ⟨some "/a.mp4".data, some "2024-01-01 00:00:00".data, none, none⟩,
          emptyFileData)
        "items[0].EndTime=2024-01-01 00:10:00".data ∧
    ([] : List Recording) = [] ∧
    parseRecordings "items[0].FilePath=/c.mp4".data = some [] := by
  refine ⟨?_, ?_, ?_⟩
  · exact C2_finalize_at_any_items_line.1 []
      ⟨some "/a.mp4".data, some "2024-01-01 00:00:00".data, none, none⟩
      "items[0].EndTime=2024-01-01 00:10:00".data (by decide) (by decide)
  · exact C2_finalize_at_any_items_line.2.1 [] []
      ⟨none, some "2024-01-01 00:00:00".data, none, none⟩
      ⟨none, some "2024-01-01 00:00:00".data, some "2024-01-01 00:10:00".data, none⟩
      "items[0].EndTime=2024-01-01 00:10:00".data (Or.inr (by decide)) (by decide)
  · exact C2_finalize_at_any_items_line.2.2 "items[0].FilePath=/c.mp4".data []
      ⟨some "/c.mp4".data, none, none, none⟩ (by decide) (by decide)

/-- C2 counterexample: on `cexBatchMixed` the claim's boundary rule predicts
one `RecordingRef` for entry 0 (finalized at the `items[1]` boundary; its
fields are complete and creatable, as the second conjunct shows) and one for
entry 1.  The code instead finalizes mid-entry: at `items[0].EndTime=...` the
accumulator is already complete, creation fails on the missing end time and
is silently dropped, and the stale end time then bleeds into the next entry.
The output is a single chimera — entry 1's path and start time joined to
entry 0's end time — and no output at all carries entry 0's path. -/
theorem C2_boundary_only_refuted :
    parseRecordings cexBatchMixed =
      some [⟨⟨2024, 1, 1, 1, 0, 0⟩, ⟨2024, 1, 1, 0, 10, 0⟩, "/b.mp4".data, 0⟩] ∧
    createRecording
        ⟨some "/a.mp4".data, some "2024-01-01 00:00:00".data,
          some "2024-01-01 00:10:00".data, none⟩ =
      some ⟨⟨2024, 1, 1, 0, 0, 0⟩, ⟨2024, 1, 1, 0, 10, 0⟩, "/a.mp4".data, 0⟩ := by
  exact ⟨by decide, by decide⟩

/-! ## C3: the batch-loop stop condition -/

theorem fetchNextBatchFilter_cases (text : Chars) :
    fetchNextBatchFilter text = [] ∨ fetchNextBatchFilter text = text := by
  unfold fetchNextBatchFilter
  split
  · exact Or.inl rfl
  · split
    · exact Or.inl rfl
    · split
      · exact Or.inl rfl
      · exact Or.inr rfl

theorem isStopBatch_parse {b : Chars} (h : isStopBatch b = true)
    (hne : (fetchNextBatchFilter b).isEmpty = false) :
    parseRecordings b = some [] := by
  unfold isStopBatch at h
  rw [hne, Bool.false_or] at h
  cases hp : parseRecordings b with
  | none => rw [hp] at h; simp at h
  | some l =>
    cases l with
    | nil => rfl
    | cons x xs => rw [hp] at h; simp at h

theorem isProductiveBatch_spec {b : Chars} (h : isProductiveBatch b = true) :
    fetchNextBatchFilter b = b ∧ (fetchNextBatchFilter b).isEmpty = false ∧
      ∃ x xs, parseRecordings b = some (x :: xs) := by
  unfold isProductiveBatch at h
  rw [Bool.and_eq_true] at h
  obtain ⟨h1, h2⟩ := h
  have hne : (fetchNextBatchFilter b).isEmpty = false := by simpa using h1
  have hf : fetchNextBatchFilter b = b := by
    rcases fetchNextBatchFilter_cases b with hf | hf
    · rw [hf] at hne; simp at hne
    · exact hf
  refine ⟨hf, hne, ?_⟩
  cases hp : parseRecordings b with
  | none => rw [hp] at h2; simp at h2
  | some l =>
    cases l with
    | nil => rw [hp] at h2; simp at h2
    | cons x xs => exact ⟨x, xs, rfl⟩

/-- C3: corrected stop condition of `_collect_all_batches`.  The loop keeps
requesting batches only while *both* the server's leading `found=<n>` line
reports `n ≠ 0` *and* the current batch parsed to at least one recording; it
stops as soon as the server reports no more results (`found=0`, absent or
malformed) **or** a batch parses to zero recordings (for example because
every entry was filtered out by the file-extension check).  Accumulated
recordings from the productive prefix are returned. -/
theorem C3_stops_on_empty_parse : ∀ (good : List Chars) (stopBody : Chars)
    (restResps : List NetResult) (acc : List Recording),
    (∀ b ∈ good, isProductiveBatch b = true) →
    isStopBatch stopBody = true →
    collectAllBatches (good.map NetResult.ok ++ NetResult.ok stopBody :: restResps) acc =
      .ok (acc ++ good.flatMap (fun b => (parseRecordings b).getD [])) := by
  intro good
  induction good with
  | nil =>
    intro stopBody restResps acc hgood hstop
    simp only [List.map_nil, List.nil_append, List.flatMap_nil, List.append_nil,
      collectAllBatches]
    rcases fetchNextBatchFilter_cases stopBody with hf | hf
    · simp [hf]
    · rw [hf]
      cases he : stopBody.isEmpty with
      | true => simp [he]
      | false =>
        have hparse : parseRecordings stopBody = some [] :=
          isStopBatch_parse hstop (by rw [hf]; exact he)
        simp [he, hparse]
  | cons b good ih =>
    intro stopBody restResps acc hgood hstop
    obtain ⟨hf, hne, x, xs, hp⟩ := isProductiveBatch_spec (hgood b (List.mem_cons_self b good))
    have hne' : b.isEmpty = false := by rw [hf] at hne; exact hne
    simp only [List.map_cons, List.cons_append, collectAllBatches, hf, hne', hp,
      Bool.false_eq_true, if_false, List.isEmpty_cons, List.append_eq]
    rw [ih stopBody restResps (acc ++ (x :: xs))
      (fun c hc => hgood c (List.mem_cons_of_mem b hc)) hstop]
    simp [hp, List.append_assoc]

/-- C3 witness: one productive batch followed by a stop batch that itself
reports `found=1` but parses to zero recordings; the trailing oracle entry is
never consulted. -/
theorem C3_stops_on_empty_parse_witness :
    (∀ b ∈ [cexBatchMp4], isProductiveBatch b = true) ∧
    isStopBatch cexBatchDav = true ∧
    collectAllBatches
        ([cexBatchMp4].map NetResult.ok ++ NetResult.ok cexBatchDav :: [NetResult.exn]) [] =
      .ok ([] ++ [cexBatchMp4].flatMap (fun b => (parseRecordings b).getD [])) :=
  ⟨by decide, by decide,
    C3_stops_on_empty_parse [cexBatchMp4] cexBatchDav [NetResult.exn] []
      (by decide) (by decide)⟩

/-- C3 counterexample: the first batch's leading line reports `found=1 > 0`
(the filter passes the body through unchanged), but every entry is filtered
out by the `.mp4` extension check, so zero recordings are parsed.  The claim
requires the loop to request a further batch — the next batch holds an
includable `/r2.mp4` recording, as the last conjunct shows — yet the code
stops at the first batch and returns the empty result. -/
theorem C3_continue_while_found_positive_refuted :
    collectAllBatches [.ok cexBatchDav, .ok cexBatchMp4] [] = .ok [] ∧
    fetchNextBatchFilter cexBatchDav = cexBatchDav ∧
    parseRecordings cexBatchDav = some [] ∧
    parseRecordings cexBatchMp4 =
      some [⟨⟨2024, 1, 1, 1, 0, 0⟩, ⟨2024, 1, 1, 1, 10, 0⟩, "/r2.mp4".data, 0⟩] := by
  exact ⟨by decide, by decide, by decide, by decide⟩

/-! ## C6: derived filenames and the returned order -/

theorem awaitCompletion_files (path : Nat → Chars) (result : Nat → Except Unit Bool) :
    ∀ (order : List Nat) (files : List Chars) (completed total : Nat),
      (awaitCompletion path result order files completed total).1 =
        files ++ order.filterMap
          (fun t => match result t with | .ok true => some (path t) | _ => none)
  | [], files, _, _ => by simp [awaitCompletion]
  | t :: rest, files, completed, total => by
    cases hr : result t with
    | ok b =>
      cases b with
      | true =>
        have ih := awaitCompletion_files path result rest (files ++ [path t])
          (completed + 1) total
        simp [awaitCompletion, hr, ih, List.filterMap_cons, List.append_assoc]
      | false =>
        have ih := awaitCompletion_files path result rest files (completed + 1) total
        simp [awaitCompletion, hr, ih, List.filterMap_cons]
    | error e =>
      have ih := awaitCompletion_files path result rest files (completed + 1) total
      simp [awaitCompletion, hr, ih, List.filterMap_cons]

theorem digitChar_lt_digitChar :
    ∀ a, a < 10 → ∀ b, b < 10 → a < b → Nat.digitChar a < Nat.digitChar b := by decide

theorem four0_lexLt {i j : Nat} (hij : i < j) (hj : j < 10000) :
    lexLt (four0 i) (four0 j) = true := by
  have hi : i < 10000 := lt_trans hij hj
  have d3i : i / 1000 % 10 = i / 1000 := Nat.mod_eq_of_lt (by omega)
  have d3j : j / 1000 % 10 = j / 1000 := Nat.mod_eq_of_lt (by omega)
  have tenpos : (0 : Nat) < 10 := by norm_num
  simp only [four0, lexLt, d3i, d3j]
  rcases Nat.lt_trichotomy (i / 1000) (j / 1000) with h3 | h3 | h3
  · rw [if_pos (digitChar_lt_digitChar _ (by omega) _ (by omega) h3)]
  · have e3 : Nat.digitChar (i / 1000) = Nat.digitChar (j / 1000) := by rw [h3]
    rw [e3, if_neg (lt_irrefl _), if_neg (lt_irrefl _)]
    rcases Nat.lt_trichotomy (i / 100 % 10) (j / 100 % 10) with h2 | h2 | h2
    · rw [if_pos (digitChar_lt_digitChar _ (Nat.mod_lt _ tenpos) _ (Nat.mod_lt _ tenpos) h2)]
    · have e2 : Nat.digitChar (i / 100 % 10) = Nat.digitChar (j / 100 % 10) := by rw [h2]
      rw [e2, if_neg (lt_irrefl _), if_neg (lt_irrefl _)]
      rcases Nat.lt_trichotomy (i / 10 % 10) (j / 10 % 10) with h1 | h1 | h1
      · rw [if_pos (digitChar_lt_digitChar _ (Nat.mod_lt _ tenpos) _ (Nat.mod_lt _ tenpos) h1)]
      · have e1 : Nat.digitChar (i / 10 % 10) = Nat.digitChar (j / 10 % 10) := by rw [h1]
        rw [e1, if_neg (lt_irrefl _), if_neg (lt_irrefl _)]
        have h0 : i % 10 < j % 10 := by omega
        rw [if_pos (digitChar_lt_digitChar _ (Nat.mod_lt _ tenpos) _ (Nat.mod_lt _ tenpos) h0)]
      · exact absurd h1 (by omega)
    · exact absurd h2 (by omega)
  · exact absurd h3 (by omega)

theorem lexLt_append_left : ∀ (p a b : Chars),
    lexLt a b = true → lexLt (p ++ a) (p ++ b) = true
  | [], _, _, h => h
  | c :: p', a, b, h => by
    simp only [List.cons_append, lexLt]
    rw [if_neg (lt_irrefl c), if_neg (lt_irrefl c)]
    exact lexLt_append_left p' a b h

theorem lexLt_append_of_eq_length : ∀ {a b : Chars}, a.length = b.length →
    lexLt a b = true → ∀ (u v : Chars), lexLt (a ++ u) (b ++ v) = true
  | [], [], _, h, _, _ => by simp [lexLt] at h
  | [], _ :: _, hl, _, _, _ => by simp at hl
  | _ :: _, [], hl, _, _, _ => by simp at hl
  | x :: a', y :: b', hl, h, u, v => by
    by_cases hxy : x < y
    · simp only [List.cons_append, lexLt]
      rw [if_pos hxy]
    · by_cases hyx : y < x
      · simp only [lexLt] at h
        rw [if_neg hxy, if_pos hyx] at h
        exact absurd h (by simp)
      · simp only [lexLt] at h
        rw [if_neg hxy, if_neg hyx] at h
        simp only [List.cons_append, lexLt]
        rw [if_neg hxy, if_neg hyx]
        exact lexLt_append_of_eq_length (by simpa using hl) h u v

theorem four0_length (n : Nat) : (four0 n).length = 4 := rfl

/-- For indices below 10000 the zero-padded four-digit block decides the
order of two derived filenames, whatever the recordings' timestamps: the
filename of a smaller index is strictly smaller. -/
theorem generateFilename_lexLt (outputDir : Chars) (r1 r2 : Recording) {i j : Nat}
    (hij : i < j) (hj : j < 10000) :
    lexLt (generateFilename outputDir r1 i) (generateFilename outputDir r2 j) = true := by
  have hi : i < 10000 := lt_trans hij hj
  have hfi : fmt04 i = four0 i := by unfold fmt04; rw [if_pos hi]
  have hfj : fmt04 j = four0 j := by unfold fmt04; rw [if_pos hj]
  unfold generateFilename
  rw [hfi, hfj]
  simp only [List.append_assoc]
  apply lexLt_append_left
  apply lexLt_append_left
  exact lexLt_append_of_eq_length (by rw [four0_length, four0_length])
    (four0_lexLt hij hj) _ _

theorem getD_replicate {α : Type} (a dflt : α) :
    ∀ (n i : Nat), i < n → (List.replicate n a).getD i dflt = a
  | n + 1, 0, _ => rfl
  | n + 1, i + 1, h => getD_replicate a dflt n i (by omega)

theorem sorted_filterMap_range (f : Nat → Option Chars) (n : Nat)
    (hmono : ∀ i j x y, i < j → j < n → f i = some x → f j = some y →
      lexLt x y = true) :
    List.Sorted chLe ((List.range n).filterMap f) := by
  revert hmono
  induction n with
  | zero => intro _; simp
  | succ n ihn =>
    intro hmono
    rw [List.range_succ, List.filterMap_append]
    show List.Pairwise chLe _
    refine List.pairwise_append.mpr
      ⟨ihn (fun i j x y hij hjn hfi hfj => hmono i j x y hij (by omega) hfi hfj),
        ?_, ?_⟩
    · cases hf : f n with
      | none => simp [List.filterMap, hf]
      | some x => simp [List.filterMap, hf]
    · intro a ha b hb
      obtain ⟨ia, hia, hfa⟩ := List.mem_filterMap.mp ha
      obtain ⟨ib, hib, hfb⟩ := List.mem_filterMap.mp hb
      have hibn : ib = n := by simpa using hib
      rw [hibn] at hfb
      have hian : ia < n := List.mem_range.mp hia
      exact lexLe_of_lexLt (hmono ia n a b hian (by omega) hfa hfb)

/-- C6: `download_all` returns exactly the derived output paths of the tasks
whose retries ultimately succeeded, sorted ascending in the lexicographic
path order; and as long as the input holds at most 10000 recordings — so
every `%04d` index pads to exactly four digits — that sorted order coincides
with the input order of the corresponding recordings, whatever the pool's
completion order was. -/
theorem C6_sorted_paths_coincide_with_input (recs : List Recording)
    (outputDir : Chars) (oracles : Nat → Nat → FetchOracle) (order : List Nat)
    (hperm : order.Perm (List.range recs.length)) (hn : recs.length ≤ 10000) :
    (downloadAll recs outputDir oracles order).paths =
      (List.range recs.length).filterMap
        (fun t => match taskResult oracles t with
          | .ok true => some (taskPath recs outputDir t)
          | _ => none) := by
  cases recs with
  | nil =>
    have h0 : order = [] := hperm.eq_nil
    subst h0
    rfl
  | cons r rs =>
    have hpaths : (downloadAll (r :: rs) outputDir oracles order).paths =
        pySorted (order.filterMap
          (fun t => match taskResult oracles t with
            | .ok true => some (taskPath (r :: rs) outputDir t)
            | _ => none)) := by
      simp only [downloadAll]
      rw [awaitCompletion_files]
      simp
    rw [hpaths]
    refine @List.eq_of_perm_of_sorted _ chLe ⟨fun a b h1 h2 => lexLe_antisymm h1 h2⟩ _ _
      ?_ ?_ ?_
    · exact (pySorted_perm _).trans (hperm.filterMap _)
    · exact pySorted_sorted _
    · apply sorted_filterMap_range
      intro i j x y hij hjn hfi hfj
      have hx : x = taskPath (r :: rs) outputDir i := by
        cases hti : taskResult oracles i with
        | ok b =>
          cases b with
          | true => rw [hti] at hfi; simpa using hfi.symm
          | false => rw [hti] at hfi; simp at hfi
        | error e => rw [hti] at hfi; simp at hfi
      have hy : y = taskPath (r :: rs) outputDir j := by
        cases htj : taskResult oracles j with
        | ok b =>
          cases b with
          | true => rw [htj] at hfj; simpa using hfj.symm
          | false => rw [htj] at hfj; simp at hfj
        | error e => rw [htj] at hfj; simp at hfj
      subst hx; subst hy
      exact generateFilename_lexLt outputDir _ _ hij (lt_of_lt_of_le hjn hn)

/-- C6 witness: two recordings, task 0 failing all retries and task 1
succeeding, completing in reverse order: the returned paths are exactly the
input-order filtered successes. -/
theorem C6_sorted_paths_coincide_with_input_witness :
    ([1, 0] : List Nat).Perm
      (List.range ([defaultRecording, defaultRecording] : List Recording).length) ∧
    ([defaultRecording, defaultRecording] : List Recording).length ≤ 10000 ∧
    (downloadAll [defaultRecording, defaultRecording] "/out".data
        (fun i _ => if i == 0 then ⟨false, true, [], none⟩ else ⟨true, true, [[1]], none⟩)
        [1, 0]).paths =
      (List.range ([defaultRecording, defaultRecording] : List Recording).length).filterMap
        (fun t => match taskResult
            (fun i _ => if i == 0 then ⟨false, true, [], none⟩ else ⟨true, true, [[1]], none⟩) t with
          | .ok true => some (taskPath [defaultRecording, defaultRecording] "/out".data t)
          | _ => none) :=
  ⟨by decide, by decide,
    C6_sorted_paths_coincide_with_input [defaultRecording, defaultRecording] "/out".data
      (fun i _ => if i == 0 then ⟨false, true, [], none⟩ else ⟨true, true, [[1]], none⟩)
      [1, 0] (by decide) (by decide)⟩

/-- C6 counterexample: with 10001 recordings (all tasks succeeding, completion
order = input order) the claim fails.  The returned list is sorted in the
path order and is a permutation of all 10001 derived paths, but the derived
path of input position 10000 — `recording_10000_...`, whose index the `%04d`
format can no longer pad to four digits — is strictly *smaller* than the path
of input position 9999 (`'1' < '9'`).  A sorted list containing both must
place position 10000's path before position 9999's, so the returned order
cannot coincide with the input order of the recordings. -/
theorem C6_sorted_order_differs_from_input_beyond_9999 :
    List.Sorted chLe (downloadAll manyRecs "/out".data
      (fun _ _ => ⟨true, true, [[1]], none⟩) (List.range 10001)).paths ∧
    (downloadAll manyRecs "/out".data
        (fun _ _ => ⟨true, true, [[1]], none⟩) (List.range 10001)).paths.Perm
      ((List.range 10001).map (fun t => taskPath manyRecs "/out".data t)) ∧
    lexLt (taskPath manyRecs "/out".data 10000) (taskPath manyRecs "/out".data 9999) = true ∧
    taskPath manyRecs "/out".data 9999 =
      "/out/recording_9999_19700101_000000.mp4".data ∧
    taskPath manyRecs "/out".data 10000 =
      "/out/recording_10000_19700101_000000.mp4".data := by
  have hcons : manyRecs = defaultRecording :: List.replicate 10000 defaultRecording := rfl
  have e9999 : taskPath manyRecs "/out".data 9999 =
      generateFilename "/out".data defaultRecording 9999 := by
    unfold taskPath manyRecs
    rw [getD_replicate defaultRecording defaultRecording 10001 9999 (by norm_num)]
  have e10000 : taskPath manyRecs "/out".data 10000 =
      generateFilename "/out".data defaultRecording 10000 := by
    unfold taskPath manyRecs
    rw [getD_replicate defaultRecording defaultRecording 10001 10000 (by norm_num)]
  refine ⟨?_, ?_, ?_, ?_, ?_⟩
  · rw [hcons]
    simp only [downloadAll]
    exact pySorted_sorted _
  · rw [hcons]
    simp only [downloadAll]
    rw [awaitCompletion_files]
    have hfn : (fun t => match taskResult
          (fun _ _ => (⟨true, true, [[1]], none⟩ : FetchOracle)) t with
        | .ok true =>
          some (taskPath (defaultRecording :: List.replicate 10000 defaultRecording)
            "/out".data t)
        | _ => none) =
        (some ∘ taskPath
          (defaultRecording :: List.replicate 10000 defaultRecording) "/out".data) :=
      funext fun t => rfl
    rw [List.nil_append, hfn,
      List.filterMap_eq_map (taskPath
        (defaultRecording :: List.replicate 10000 defaultRecording) "/out".data)]
    exact pySorted_perm _
  · rw [e9999, e10000]
    decide
  · rw [e9999]
    decide
  · rw [e10000]
    decide
